import Mathlib

/-!
Verification of the vispy scenegraph-composition layer:
`vispy/scene/visuals.py`, `vispy/scene/transforms/transform.py`,
`vispy/plot/fig.py`.

The Python classes are shallowly embedded: a `VisualNode`'s
picking-relevant state is a finite tree of boolean flags, the global
id counter and weak-value id registry are explicit state records, and
stateful methods become pure state-transition functions.
-/

namespace Vispy

/-- The picking-relevant state of a `VisualNode` subtree: the node's
`_picking` flag, its `_picking_filter.enabled` flag, its GL `blend`
state, and its children. -/
inductive VTree : Type where
  | mk (picking : Bool) (filterEnabled : Bool) (blend : Bool)
       (children : List VTree)

def VTree.picking : VTree → Bool
  | .mk p _ _ _ => p

def VTree.filterEnabled : VTree → Bool
  | .mk _ f _ _ => f

def VTree.blend : VTree → Bool
  | .mk _ _ b _ => b

def VTree.children : VTree → List VTree
  | .mk _ _ _ cs => cs

mutual

/-- Embedding of the `picking` setter of `VisualNode`
(`visuals.py` lines 62-70): first recurse into every child, then
return early if `self._picking == p`; otherwise store `p`, enable the
picking filter accordingly and set `blend` to `not p`. -/
def setPicking (p : Bool) : VTree → VTree
  | .mk pk fe bl cs =>
    let cs' := setPickingList p cs
    if pk = p then .mk pk fe bl cs'
    else .mk p p (!p) cs'

/-- The `for c in self.children: c.picking = p` loop. -/
def setPickingList (p : Bool) : List VTree → List VTree
  | [] => []
  | c :: cs => setPicking p c :: setPickingList p cs

end

mutual

/-- `true` iff every node of the tree has `picking = p`. -/
def allPicking (p : Bool) : VTree → Bool
  | .mk pk _ _ cs => (pk == p) && allPickingList p cs

def allPickingList (p : Bool) : List VTree → Bool
  | [] => true
  | c :: cs => allPicking p c && allPickingList p cs

end

mutual

theorem allPicking_setPicking (p : Bool) :
    (t : VTree) → allPicking p (setPicking p t) = true
  | .mk pk fe bl cs => by
    by_cases h : pk = p <;>
      simp [setPicking, allPicking, h, allPickingList_setPickingList p cs]

theorem allPickingList_setPickingList (p : Bool) :
    (l : List VTree) → allPickingList p (setPickingList p l) = true
  | [] => rfl
  | c :: cs => by
    simp [setPickingList, allPickingList, allPicking_setPicking p c,
      allPickingList_setPickingList p cs]

end

/-- A sample three-level tree (root, child, grandchild), all flags off. -/
def sampleTree : VTree :=
  .mk false false true [.mk false false true [.mk false false true []]]

/-- C1: setting `picking = p` on a VisualNode recurses the assignment to
every child unconditionally (after the call every node of the subtree has
`picking = p`, and the children are always the recursively-updated ones),
and updates this node's picking-filter enabled state and sets blending to
the complement of `p` only if `p` differs from the previous value; when it
does not differ, the local state is untouched. -/
theorem picking_setter_recurses_then_updates_conditionally (p : Bool) (t : VTree) :
    (setPicking p t).children = setPickingList p t.children
    ∧ allPicking p (setPicking p t) = true
    ∧ (t.picking ≠ p →
        (setPicking p t).picking = p ∧
        (setPicking p t).filterEnabled = p ∧
        (setPicking p t).blend = !p)
    ∧ (t.picking = p →
        (setPicking p t).picking = t.picking ∧
        (setPicking p t).filterEnabled = t.filterEnabled ∧
        (setPicking p t).blend = t.blend) := by
  obtain ⟨pk, fe, bl, cs⟩ := t
  by_cases h : pk = p <;>
    simp [setPicking, VTree.children, VTree.picking, VTree.filterEnabled,
      VTree.blend, h, allPicking, allPickingList_setPickingList]

/-- Witness for C1 at the spec's two-descendant-level example: after
`picking := true` on the root, every node of the subtree has
`picking = true`, and since the root's value changed its picking filter
is enabled. -/
theorem picking_setter_recurses_witness :
    allPicking true (setPicking true sampleTree) = true
    ∧ (setPicking true sampleTree).filterEnabled = true := by
  have h := picking_setter_recurses_then_updates_conditionally true sampleTree
  exact ⟨h.2.1, (h.2.2.1 (by decide)).2.1⟩

/-- C4: assigning `picking` the value it already holds still recurses into
the children (they become the recursively-updated list) but leaves this
node's own `picking`, filter-enabled and blend state unchanged. -/
theorem redundant_picking_assignment_no_local_mutation (p : Bool) (t : VTree)
    (h : t.picking = p) :
    setPicking p t =
      VTree.mk t.picking t.filterEnabled t.blend (setPickingList p t.children) := by
  obtain ⟨pk, fe, bl, cs⟩ := t
  simp only [VTree.picking] at h
  simp [setPicking, VTree.picking, VTree.filterEnabled, VTree.blend,
    VTree.children, h]

/-- Witness for C4 at a concrete node whose `picking` is already `true`. -/
theorem redundant_picking_assignment_witness :
    setPicking true (VTree.mk true true false [VTree.mk true true false []]) =
      VTree.mk true true false [VTree.mk true true false []] :=
  redundant_picking_assignment_no_local_mutation true
    (VTree.mk true true false [VTree.mk true true false []]) rfl

/-- A drawable-level draw call performed by `VisualNode.draw`
(delegation to `self._visual_superclass.draw`). -/
inductive DrawCall : Type where
  | superDraw
deriving DecidableEq

/-- The two flags `VisualNode.draw` consults. -/
structure VNodeFlags where
  picking : Bool
  interactive : Bool

/-- Embedding of `VisualNode.draw` (visuals.py lines 83-86): return
early when `self.picking and not self.interactive`, else delegate to the
visual superclass's draw. The result is the list of drawable-level draw
calls performed. -/
def draw (v : VNodeFlags) : List DrawCall :=
  if v.picking && !v.interactive then []
  else [DrawCall.superDraw]

/-- C3: `draw()` performs no drawable-level draw call exactly when
`picking` is true and `interactive` is false; in every other combination
of the two flags it delegates to the wrapped drawable's draw. -/
theorem draw_gated_by_picking_and_interactive (v : VNodeFlags) :
    (v.picking = true ∧ v.interactive = false → draw v = [])
    ∧ (¬(v.picking = true ∧ v.interactive = false) →
        draw v = [DrawCall.superDraw]) := by
  obtain ⟨p, i⟩ := v
  cases p <;> cases i <;> simp [draw]

/-- Witness for C3: picking non-interactive nodes draw nothing; picking
interactive nodes delegate. -/
theorem draw_gated_witness :
    draw ⟨true, false⟩ = [] ∧ draw ⟨true, true⟩ = [DrawCall.superDraw] :=
  ⟨(draw_gated_by_picking_and_interactive ⟨true, false⟩).1 ⟨rfl, rfl⟩,
   (draw_gated_by_picking_and_interactive ⟨true, true⟩).2 (by simp)⟩

/-- A transform value: either a transform of the generic base kind
(`Transform`, transform.py line 25, carrying its forward mapping), or a
`ChainTransform` over an ordered member list (member at index 0 applied
last, per the composition convention of the docstring). -/
inductive TransformVal : Type where
  | base (f : Int × Int → Int × Int)
  | chainTransform (members : List TransformVal)

def TransformVal.isBase : TransformVal → Bool
  | .base _ => true
  | .chainTransform _ => false

/-- Embedding of `Transform.__rmul__` (transform.py lines 192-193):
`B.__rmul__(A)` returns `ChainTransform([A, B])`. The receiver is the
first argument. -/
def Transform.rmulOp (self tr : TransformVal) : TransformVal :=
  .chainTransform [tr, self]

/-- Embedding of `Transform.__mul__` (transform.py lines 156-190): the
base kind never combines on its own and instead calls the right
operand's `__rmul__`. The `Except` result records whether an error is
raised; no branch of the source raises. -/
def Transform.mulOp (self tr : TransformVal) : Except String TransformVal :=
  .ok (Transform.rmulOp tr self)

mutual

/-- Modelled from the spec: `chain.py` (ChainTransform's `map`) is not
in the sources; per §3 and §4.2 a chain applies its members in
sequence, the member at index 0 applied last. A base transform applies
its own mapping. -/
def applyTransform : TransformVal → Int × Int → Int × Int
  | .base f, x => f x
  | .chainTransform ms, x => applyChain ms x

def applyChain : List TransformVal → Int × Int → Int × Int
  | [], x => x
  | t :: ts, x => applyTransform t (applyChain ts x)

end

/-- C2: for two base-kind transforms (neither overriding the
multiplication protocol), `A * B` raises no error and returns
`ChainTransform([A, B])`, in which `B` is applied first and `A` last. -/
theorem mul_of_base_transforms_is_chain (a b : TransformVal) (x : Int × Int)
    (_ha : a.isBase = true) (_hb : b.isBase = true) :
    Transform.mulOp a b = .ok (.chainTransform [a, b])
    ∧ applyTransform (.chainTransform [a, b]) x
        = applyTransform a (applyTransform b x) := by
  constructor
  · rfl
  · simp [applyTransform, applyChain]

/-- Witness for C2 at the spec's example `A = translate(+1,0)`,
`B = translate(0,+1)`: the product is the two-member chain and the
chain maps `(0,0)` to `A (B (0,0))`. -/
theorem mul_of_base_transforms_witness :
    Transform.mulOp (TransformVal.base (fun q => (q.1 + 1, q.2)))
        (TransformVal.base (fun q => (q.1, q.2 + 1))) =
      Except.ok (TransformVal.chainTransform
        [TransformVal.base (fun q => (q.1 + 1, q.2)),
         TransformVal.base (fun q => (q.1, q.2 + 1))])
    ∧ applyTransform (TransformVal.chainTransform
        [TransformVal.base (fun q => (q.1 + 1, q.2)),
         TransformVal.base (fun q => (q.1, q.2 + 1))]) (0, 0)
        = applyTransform (TransformVal.base (fun q => (q.1 + 1, q.2)))
            (applyTransform (TransformVal.base (fun q => (q.1, q.2 + 1))) (0, 0)) :=
  mul_of_base_transforms_is_chain _ _ _ rfl rfl

/-- What `create_visual_node` inspects about the supplied class: its
`__name__` and whether it is a subclass of `visuals.BaseVisual`. -/
structure PyClass where
  name : String
  subclassOfBaseVisual : Bool

/-- The composed type produced by the factory on success: its public
name (suffix stripped) and the wrapped visual superclass's name. -/
structure CompositeType where
  name : String
  superclassName : String

/-- Python's `str.endswith`, on the character lists of the strings. -/
def pyEndsWith (s suffixStr : String) : Bool :=
  suffixStr.data.isSuffixOf s.data

/-- Embedding of the validation and naming part of `create_visual_node`
(visuals.py lines 89-98): if the class name does not end with "Visual"
or the class does not subclass `BaseVisual`, raise a `RuntimeError`
naming the class; otherwise the composed type is produced, named by
dropping the six-character suffix. -/
def create_visual_node (subclass : PyClass) : Except String CompositeType :=
  let clsname := subclass.name
  if !(pyEndsWith clsname ("Visual") && subclass.subclassOfBaseVisual) then
    .error ("Class \"" ++ clsname ++
      "\" must end with Visual, and must subclass BaseVisual")
  else
    .ok { name := clsname.dropRight 6, superclassName := clsname }

/-- C5: a class whose name lacks the "Visual" suffix, or which does not
subclass BaseVisual, makes the factory raise an error whose message
names the offending class, and no composed type is produced — so the
failure happens at composition time, before any instance could be
constructed. -/
theorem create_visual_node_rejects_bad_subclass (t : PyClass)
    (h : pyEndsWith t.name ("Visual") = false ∨ t.subclassOfBaseVisual = false) :
    create_visual_node t =
      .error ("Class \"" ++ t.name ++
        "\" must end with Visual, and must subclass BaseVisual")
    ∧ ∀ ct : CompositeType, create_visual_node t ≠ .ok ct := by
  have hc : (pyEndsWith t.name ("Visual") && t.subclassOfBaseVisual) = false := by
    obtain h | h := h <;> simp [h]
  constructor
  · simp [create_visual_node, hc]
  · intro ct hct
    simp [create_visual_node, hc] at hct

/-- Witness for C5 at the concrete class name "Line" (missing suffix). -/
theorem create_visual_node_rejects_witness :
    create_visual_node ⟨"Line", true⟩ =
      Except.error ("Class \"" ++ "Line" ++
        "\" must end with Visual, and must subclass BaseVisual")
    ∧ ∀ ct : CompositeType, create_visual_node ⟨"Line", true⟩ ≠ Except.ok ct :=
  create_visual_node_rejects_bad_subclass ⟨"Line", true⟩ (Or.inl (by decide))

/-- One step of the composed type's `__init__` trace. -/
inductive InitStep : Type where
  | setNameEarly
  | setVisualSuperclass
  | drawableInit (k : Nat)
  | unfreeze
  | nodeInit
  | setInteractiveDefault
  | attachOpacityFilter
  | assignId
  | registerId
  | attachPickingFilter
  | freeze
deriving DecidableEq

/-- The steps performed by `VisualNode.__init__` (visuals.py lines
27-38): `Node.__init__`, default `interactive`, opacity-filter
attachment, id assignment, registry insertion, picking-filter
attachment. -/
def visualNodeSteps : List InitStep :=
  [.nodeInit, .setInteractiveDefault, .attachOpacityFilter,
   .assignId, .registerId, .attachPickingFilter]

/-- Embedding of the composed type's `__init__` (visuals.py lines
108-117) as the trace of steps it performs: set `name`, record the
visual superclass, run the drawable subclass's own `__init__` (an
arbitrary trace of drawable-specific steps), unfreeze, run
`VisualNode.__init__`, freeze. -/
def compositeInitTrace (dsteps : List Nat) : List InitStep :=
  [.setNameEarly, .setVisualSuperclass] ++ dsteps.map InitStep.drawableInit
    ++ [.unfreeze] ++ visualNodeSteps ++ [.freeze]

def InitStep.isDrawableInit : InitStep → Bool
  | .drawableInit _ => true
  | _ => false

/-- Steps belonging to `VisualNode.__init__` (tree membership and
filter attachment). -/
def InitStep.isVisualNodeInit : InitStep → Bool
  | .nodeInit => true
  | .setInteractiveDefault => true
  | .attachOpacityFilter => true
  | .assignId => true
  | .registerId => true
  | .attachPickingFilter => true
  | _ => false

/-- C6: in the composed type's `__init__` trace, the drawable variant's
own initialization completes before any `VisualNode` initialization
step runs: the trace splits into a prefix free of VisualNode-init steps
(containing every drawable-init step) and a suffix free of
drawable-init steps. -/
theorem drawable_init_completes_before_visualnode_init (dsteps : List Nat) :
    ∃ pre post, compositeInitTrace dsteps = pre ++ post
      ∧ (∀ s ∈ pre, s.isVisualNodeInit = false)
      ∧ (∀ s ∈ post, s.isDrawableInit = false)
      ∧ ∀ s ∈ compositeInitTrace dsteps, s.isDrawableInit = true → s ∈ pre := by
  refine ⟨[InitStep.setNameEarly, InitStep.setVisualSuperclass]
      ++ dsteps.map InitStep.drawableInit ++ [InitStep.unfreeze],
    visualNodeSteps ++ [InitStep.freeze], ?heq, ?hpre, by decide, ?hall⟩
  case heq => simp [compositeInitTrace]
  case hpre =>
    intro s hs
    rcases List.mem_append.mp hs with h12 | h3
    · rcases List.mem_append.mp h12 with h1 | h2
      · fin_cases h1 <;> rfl
      · obtain ⟨k, hk, rfl⟩ := List.mem_map.mp h2
        rfl
    · fin_cases h3
      rfl
  case hall =>
    intro s hs hd
    have heq2 : compositeInitTrace dsteps =
        ([InitStep.setNameEarly, InitStep.setVisualSuperclass]
          ++ dsteps.map InitStep.drawableInit ++ [InitStep.unfreeze])
        ++ (visualNodeSteps ++ [InitStep.freeze]) := by
      simp [compositeInitTrace]
    rw [heq2] at hs
    rcases List.mem_append.mp hs with h1 | h2
    · exact h1
    · exfalso
      have hfalse : s.isDrawableInit = false := by fin_cases h2 <;> rfl
      simp [hfalse] at hd

/-- The process-wide `VisualNode` class state (visuals.py lines 23-25):
the shared `_next_id` counter and the weak-value dictionary
`_visual_ids`, together with the strong references user code holds on
nodes. A node is denoted by a handle; since ids are unique we use a
node's id as its handle. -/
structure VNodeWorld where
  next_id : Nat
  external_refs : List Nat
  visual_ids : List (Nat × Nat)

/-- The initial class state: `_next_id = 1`, empty registry. -/
def initialWorld : VNodeWorld :=
  { next_id := 1, external_refs := [], visual_ids := [] }

/-- Embedding of the id-assignment part of `VisualNode.__init__`
(visuals.py lines 34-36): `self._id = VisualNode._next_id`, register
the node under its id in `_visual_ids`, increment `_next_id`. The
caller receives a strong reference to the new node. -/
def newVisualNode (w : VNodeWorld) : Nat × VNodeWorld :=
  let i := w.next_id
  (i, { next_id := i + 1,
        external_refs := i :: w.external_refs,
        visual_ids := (i, i) :: w.visual_ids })

/-- Construct `n` VisualNodes in sequence: the list of assigned ids and
the final class state. -/
def constructMany (n : Nat) (w : VNodeWorld) : List Nat × VNodeWorld :=
  match n with
  | 0 => ([], w)
  | n + 1 =>
    let r := newVisualNode w
    let rest := constructMany n r.2
    (r.1 :: rest.1, rest.2)

theorem constructMany_fst (n : Nat) :
    ∀ w : VNodeWorld, (constructMany n w).1 = List.range' w.next_id n := by
  induction n with
  | zero => intro w; rfl
  | succ n ih =>
    intro w
    simp [constructMany, newVisualNode, ih, List.range'_succ]

theorem constructMany_next_id (n : Nat) :
    ∀ w : VNodeWorld, (constructMany n w).2.next_id = w.next_id + n := by
  induction n with
  | zero => intro w; rfl
  | succ n ih =>
    intro w
    simp [constructMany, newVisualNode, ih]
    omega

/-- C7: constructing `n` VisualNodes in sequence assigns `n` ids that
are pairwise distinct and strictly increasing in construction order;
every id comes from the shared counter's current segment, the final
counter value exceeds every assigned id (so no later construction can
ever reuse one), and each construction strictly increases the counter. -/
theorem visual_node_ids_strictly_increasing (n : Nat) (w : VNodeWorld) :
    (constructMany n w).1.length = n
    ∧ List.Chain' (· < ·) (constructMany n w).1
    ∧ (constructMany n w).1.Nodup
    ∧ (∀ i ∈ (constructMany n w).1,
        w.next_id ≤ i ∧ i < (constructMany n w).2.next_id)
    ∧ (constructMany n w).2.next_id = w.next_id + n
    ∧ w.next_id < (newVisualNode w).2.next_id := by
  rw [constructMany_fst, constructMany_next_id]
  refine ⟨by simp, ?_, ?_, ?_, rfl, Nat.lt_succ_self _⟩
  · exact (List.pairwise_lt_range' _ _ _ Nat.one_pos).chain'
  · exact List.nodup_range' _ _ _ Nat.one_pos
  · intro i hi
    exact List.mem_range'_1.mp hi

/-- Python reference semantics: user code drops its strong reference to
the node with handle `h` (rebinding, `del`, scope exit). -/
def dropRef (w : VNodeWorld) (h : Nat) : VNodeWorld :=
  { w with external_refs := w.external_refs.erase h }

/-- Embedding of the `weakref.WeakValueDictionary` semantics of
`_visual_ids` (visuals.py line 25): a garbage-collection pass discards
every registry entry whose node is no longer strongly referenced; the
registry's own entries do not count as strong references, so the
registry never keeps a node alive. -/
def collectGarbage (w : VNodeWorld) : VNodeWorld :=
  { w with visual_ids :=
      w.visual_ids.filter (fun e => decide (e.2 ∈ w.external_refs)) }

/-- Registry lookup, `VisualNode._visual_ids[id]` (id → node handle). -/
def lookupVisual (i : Nat) (w : VNodeWorld) : Option Nat :=
  (w.visual_ids.find? (fun e => e.1 == i)).map (fun e => e.2)

/-- Modelled from the spec: the claim's "explicit ownership" strategy
(design note §9), under which a registry entry is removed only by the
owning structure explicitly deregistering on destruction and never by
automatic weak-reference collection. The source contains no
deregistration call, so under that strategy a collection pass leaves
the registry unchanged. -/
def collectGarbageExplicit (w : VNodeWorld) : VNodeWorld := w

/-- Counterexample to C8 as stated: construct one node, drop the user's
strong reference, collect. The source's weak-value registry drops the
entry automatically (lookup reports not-found) even though no
deregistration call was made — none exists in the source — while the
claimed explicit-ownership strategy would have kept the entry alive. -/
theorem registry_entry_removed_without_deregistration :
    lookupVisual 1 (collectGarbage (dropRef (newVisualNode initialWorld).2 1)) = none
    ∧ lookupVisual 1
        (collectGarbageExplicit (dropRef (newVisualNode initialWorld).2 1)) = some 1 := by
  constructor <;> rfl

/-- C8 amended: the registry is a weak-value mapping: after a
collection pass an entry survives exactly when its node is still
strongly referenced from outside the registry. Unreachable nodes'
entries are removed automatically with no explicit free call, and an
entry never keeps its node alive: an entry whose node has no external
reference is removed even though it is present in the registry, and
collection never consults the registry to decide liveness. -/
theorem registry_weak_value_semantics (w : VNodeWorld) (i h : Nat) :
    ((i, h) ∈ (collectGarbage w).visual_ids ↔
      (i, h) ∈ w.visual_ids ∧ h ∈ w.external_refs)
    ∧ (collectGarbage w).external_refs = w.external_refs := by
  constructor
  · simp [collectGarbage, List.mem_filter]
  · rfl

/-- The clipper-relevant state of a Node: the `_clippers` dict
(child-node → clipper, a partial map) and the attached items. -/
structure ClipState where
  clippers : Nat → Option Nat
  attached : List Nat

/-- An attach or detach call performed by `_set_clipper`. -/
inductive ClipEvent : Type where
  | detachEv (clipper : Nat)
  | attachEv (clipper : Nat)
deriving DecidableEq

/-- Embedding of `VisualNode._set_clipper` (visuals.py lines 44-53): if
`node` has a recorded clipper, pop it from the dict and detach it;
then, if the new clipper is not `None`, attach it and record it. The
trace of attach/detach calls is returned alongside the new state. -/
def set_clipper (s : ClipState) (node : Nat) (clipper : Option Nat) :
    ClipState × List ClipEvent :=
  let step1 :=
    match s.clippers node with
    | some old =>
      ({ clippers := fun m => if m = node then none else s.clippers m,
         attached := s.attached.erase old }, [ClipEvent.detachEv old])
    | none => (s, [])
  match clipper with
  | some c =>
    ({ clippers := fun m => if m = node then some c else step1.1.clippers m,
       attached := step1.1.attached ++ [c] }, step1.2 ++ [ClipEvent.attachEv c])
  | none => step1

/-- C9: `_set_clipper` leaves `node` mapped to exactly the new clipper
(so a `None` clipper leaves no recorded clipper), touches no other
child's entry, performs the detach of the old clipper (if any) before
the attach of the new one (if any), and updates the attached items
accordingly: the old clipper is removed, the new one appended. -/
theorem set_clipper_detach_then_attach (s : ClipState) (node : Nat)
    (clipper : Option Nat) :
    ((set_clipper s node clipper).1.clippers node = clipper)
    ∧ (∀ m, m ≠ node →
        (set_clipper s node clipper).1.clippers m = s.clippers m)
    ∧ ((set_clipper s node clipper).2 =
        (match s.clippers node with
         | some old => [ClipEvent.detachEv old]
         | none => []) ++
        (match clipper with
         | some c => [ClipEvent.attachEv c]
         | none => []))
    ∧ ((set_clipper s node clipper).1.attached =
        (match s.clippers node with
         | some old => s.attached.erase old
         | none => s.attached) ++
        (match clipper with
         | some c => [c]
         | none => [])) := by
  refine ⟨?_, ?_, ?_, ?_⟩
  · rcases hc : s.clippers node with _ | old <;> rcases clipper with _ | c <;>
      simp [set_clipper, hc]
  · intro m hm
    rcases hc : s.clippers node with _ | old <;> rcases clipper with _ | c <;>
      simp [set_clipper, hc, hm]
  · rcases hc : s.clippers node with _ | old <;> rcases clipper with _ | c <;>
      simp [set_clipper, hc]
  · rcases hc : s.clippers node with _ | old <;> rcases clipper with _ | c <;>
      simp [set_clipper, hc]

/-- Witness for C9: on a node with no prior clipper, setting clipper 5
records it for child 0, leaves child 1 untouched, and the call trace is
a single attach. -/
theorem set_clipper_witness :
    (set_clipper ⟨fun _ => none, []⟩ 0 (some 5)).1.clippers 0 = some 5
    ∧ (set_clipper ⟨fun _ => none, []⟩ 0 (some 5)).1.clippers 1 = none
    ∧ (set_clipper ⟨fun _ => none, []⟩ 0 (some 5)).2 = [ClipEvent.attachEv 5] := by
  have h := set_clipper_detach_then_attach ⟨fun _ => none, []⟩ 0 (some 5)
  exact ⟨h.1, h.2.1 1 (by decide), by simpa using h.2.2.1⟩

/-- The state of a `Fig` (fig.py lines 37-42): the grid, whose cell
lookup is an opaque collaborator returning the `PlotWidget` for given
indices, and the contents of the `_plot_widgets` list. -/
structure FigState where
  grid : Nat × Nat → Nat
  plot_widgets : List Nat

/-- A Python sequence value as returned to a caller: either the
(mutable, aliased) list object itself, or an immutable tuple holding a
snapshot of the contents. -/
inductive PySeq : Type where
  | listRef
  | tupleVal (contents : List Nat)
deriving DecidableEq

/-- Embedding of `Fig.__getitem__` (fig.py lines 49-53): fetch the
widget from the grid, append it to `_plot_widgets`, return it. -/
def Fig.getitem (f : FigState) (idxs : Nat × Nat) : Nat × FigState :=
  let pw := f.grid idxs
  (pw, { f with plot_widgets := f.plot_widgets ++ [pw] })

/-- Iterated `fig[idxs]` at the same cell. -/
def Fig.getitemRep (f : FigState) (idxs : Nat × Nat) : Nat → FigState
  | 0 => f
  | k + 1 => Fig.getitemRep (Fig.getitem f idxs).2 idxs k

/-- Embedding of the `plot_widgets` property (fig.py lines 44-47):
`tuple(self._plot_widgets)`, an immutable tuple snapshot of the list's
current contents, not the list object itself. -/
def Fig.plotWidgetsProp (f : FigState) : PySeq :=
  .tupleVal f.plot_widgets

theorem getitemRep_plot_widgets (idxs : Nat × Nat) (k : Nat) :
    ∀ f : FigState, (Fig.getitemRep f idxs k).plot_widgets
      = f.plot_widgets ++ List.replicate k (f.grid idxs) := by
  induction k with
  | zero => intro f; simp [Fig.getitemRep]
  | succ k ih =>
    intro f
    rw [Fig.getitemRep, ih]
    simp [Fig.getitem, List.replicate_succ]

/-- C10: each `Fig.__getitem__` call returns the grid's widget for the
cell and appends exactly that widget to `_plot_widgets`, so indexing
the same cell `k` times records `k` duplicate entries; and the
`plot_widgets` property returns an immutable tuple snapshot of the
list's contents, never the mutable list object itself. -/
theorem fig_getitem_records_widgets (f : FigState) (idxs : Nat × Nat) (k : Nat) :
    (Fig.getitem f idxs).1 = f.grid idxs
    ∧ (Fig.getitem f idxs).2.plot_widgets
        = f.plot_widgets ++ [(Fig.getitem f idxs).1]
    ∧ (Fig.getitemRep f idxs k).plot_widgets
        = f.plot_widgets ++ List.replicate k (f.grid idxs)
    ∧ Fig.plotWidgetsProp f = PySeq.tupleVal f.plot_widgets
    ∧ Fig.plotWidgetsProp f ≠ PySeq.listRef := by
  refine ⟨rfl, rfl, getitemRep_plot_widgets idxs k f, rfl, by simp [Fig.plotWidgetsProp]⟩

end Vispy
